import Mathlib

/-!
# Verification of the brainfuck interpreter (src/brainfuck.c)

Shallow embedding of the execution engine of `brainfuck.c`:

* `brainfuck_t` models the execution context together with the mutable
  memory it points into: the C struct holds `byte** the_pointer` plus the
  `output`/`input` hooks, and `do_brainfuck` owns the tape
  `byte mem[MAX_BRAINFUCK]`.  Here the pointer is an integer offset and the
  memory is a total function `Int → Nat` (values kept modulo 256 by each
  write), so that pointer moves past either end of the 30000-cell region
  are representable exactly as the C pointer arithmetic performs them —
  the engine itself does no bounds check.  The I/O hooks are modelled by
  an input byte stream and an output byte trace.

* `find_loop_end` is the inner `while (loop_end != end)` scan of the
  `case '['` branch: given the characters after the `[` and the running
  `open_cnt`, it returns the offset of the matching `]`, or `none` when
  the block range ends first.

* `do_brainfuck_block` is the instruction dispatcher.  The C recursion on
  `(code, n)` sub-ranges becomes recursion on a `List Char`; the
  `while (**p)` loop of the `[` case is executed by re-entering the block
  at the same `[` (the rescan is pure and returns the same span, so the
  observable behaviour is identical).  A `fuel` argument makes the
  interpreter total: `none` means the fuel ran out, `some (ret, st)` is
  the C return value together with the final memory/pointer/I/O state.
  Error codes are those of the source: `-2` unmatched `[`, `-3` unmatched
  `]`, `-4` illegal character, `0` success.
-/

/-- `#define MAX_BRAINFUCK 30000`: the size of the tape allocated by
`do_brainfuck`. -/
def MAX_BRAINFUCK : Nat := 30000

/-- The execution context of `brainfuck.c` (`struct brainfuck_t`) together
with the memory it points into.  `the_pointer` is the offset of the current
cell from the start of `mem`; it is an `Int` because the engine never
bounds-checks it.  `tape` is the memory, a byte value for every offset.
`inp`/`out` model the `input`/`output` hooks as byte streams. -/
structure brainfuck_t where
  the_pointer : Int
  tape : Int → Nat
  inp : List Nat
  out : List Nat

/-- Pointwise update of the memory, the model of `**p = v`. -/
def tape_set (t : Int → Nat) (i : Int) (v : Nat) : Int → Nat :=
  fun j => if j = i then v else t j

/-- The whitespace characters the `default` branch ignores:
`'\r' '\n' ' ' '\t' '\v' '\f'`. -/
def is_ws (c : Char) : Bool :=
  c = '\r' || c = '\n' || c = ' ' || c = '\t' || c = '\x0B' || c = '\x0C'

/-- The bracket-matching scan of the `case '['` branch.  `l` is the list of
characters after the `[` (the C `loop_end` starts at `loop_begin + 1`) and
`open_cnt` the running count of open loops.  Each `[` increments and each
`]` decrements the count; the scan stops at the first position where the
count reaches `0` and returns its offset into `l` (so the matching `]` sits
at that offset), or `none` when the end of the range is reached first. -/
def find_loop_end : List Char → Nat → Option Nat
  | [], _ => none
  | c :: rest, open_cnt =>
    let open_cnt' :=
      if c = '[' then open_cnt + 1
      else if c = ']' then open_cnt - 1
      else open_cnt
    if open_cnt' = 0 then some 0
    else (find_loop_end rest open_cnt').map (· + 1)

/-- `do_brainfuck_block(code, n, brainfuck)`: execute one block.  The C
`(code, n)` range is the list `code`; `fuel` bounds the number of steps
(`none` = fuel exhausted, never returned by the C code, which simply keeps
running).  Instruction dispatch follows the `switch` of the source:
`>` `<` move the pointer with no bounds check, `+` `-` update the current
cell modulo 256, `.` emits the current cell, `,` stores the next input byte
(the default `getchar` hook yields `EOF = -1` at end of input, which the
`(byte)` cast stores as `255`), `[` scans for its matching `]` (error `-2`
when unmatched) and then repeatedly runs the body `rest.take k` while the
current cell is non-zero, resuming after the `]` (`rest.drop (k+1)`) once
it is zero and propagating any non-zero body status unchanged; a directly
dispatched `]` is error `-3`; whitespace is skipped and anything else is
error `-4`. -/
def do_brainfuck_block : Nat → List Char → brainfuck_t → Option (Int × brainfuck_t)
  | 0, _, _ => none
  | _ + 1, [], st => some (0, st)
  | fuel + 1, c :: rest, st =>
    if c = '>' then
      do_brainfuck_block fuel rest { st with the_pointer := st.the_pointer + 1 }
    else if c = '<' then
      do_brainfuck_block fuel rest { st with the_pointer := st.the_pointer - 1 }
    else if c = '+' then
      do_brainfuck_block fuel rest
        { st with tape := tape_set st.tape st.the_pointer ((st.tape st.the_pointer + 1) % 256) }
    else if c = '-' then
      do_brainfuck_block fuel rest
        { st with tape := tape_set st.tape st.the_pointer ((st.tape st.the_pointer + 255) % 256) }
    else if c = '.' then
      do_brainfuck_block fuel rest { st with out := st.out ++ [st.tape st.the_pointer] }
    else if c = ',' then
      do_brainfuck_block fuel rest
        { st with tape := tape_set st.tape st.the_pointer (st.inp.headD 255 % 256),
                  inp := st.inp.tail }
    else if c = '[' then
      match find_loop_end rest 1 with
      | none => some (-2, st)
      | some k =>
        if st.tape st.the_pointer ≠ 0 then
          match do_brainfuck_block fuel (rest.take k) st with
          | none => none
          | some (ret, st') =>
            if ret ≠ 0 then some (ret, st')
            else do_brainfuck_block fuel (c :: rest) st'
        else do_brainfuck_block fuel (rest.drop (k + 1)) st
    else if c = ']' then some (-3, st)
    else if is_ws c then do_brainfuck_block fuel rest st
    else some (-4, st)

/-- The initial state built by `do_brainfuck`: zeroed memory, pointer at
the start of the tape, no output yet; `inp` is the byte stream the `input`
hook will deliver. -/
def init_state (inp : List Nat) : brainfuck_t :=
  { the_pointer := 0, tape := fun _ => 0, inp := inp, out := [] }

/-- `do_brainfuck(code, n)`: allocate and zero the tape, point at its
first cell, and run the whole script as one block. -/
def do_brainfuck (fuel : Nat) (code : List Char) (inp : List Nat) :
    Option (Int × brainfuck_t) :=
  do_brainfuck_block fuel code (init_state inp)

/-- Observable projection of a run: the status code, the final pointer,
and the emitted bytes (the parts of the state with decidable equality). -/
def run_obs (fuel : Nat) (code : List Char) (inp : List Nat) :
    Option (Int × Int × List Nat) :=
  (do_brainfuck fuel code inp).map (fun r => (r.1, r.2.the_pointer, r.2.out))

/-- The eight instruction characters of the `switch`. -/
def is_instruction (c : Char) : Bool :=
  c = '>' || c = '<' || c = '+' || c = '-' || c = '.' || c = ',' || c = '[' || c = ']'

/-- The depth counter of the scan, as an integer, generalised to an
arbitrary starting depth `d`: the depth after scanning the first `j`
characters of `l`, incremented on each `[` and decremented on each `]`. -/
def depth_from (d : Int) (l : List Char) (j : Nat) : Int :=
  d + ((l.take j).count '[' : Int) - ((l.take j).count ']' : Int)

/-- The nesting depth counter as the spec words it: the depth after
scanning the first `j` characters that follow the `[`, starting at 1. -/
def nest_depth (l : List Char) (j : Nat) : Int :=
  depth_from 1 l j

/-- The contribution of one character to the depth counter. -/
def depth_delta (c : Char) : Int :=
  if c = '[' then 1 else if c = ']' then -1 else 0

/-- A state whose current cell holds `n` and which is otherwise like the
initial one; used to exercise the theorems on concrete inputs. -/
def st_n (n : Nat) : brainfuck_t :=
  { the_pointer := 0, tape := tape_set (fun _ => 0) 0 n, inp := [], out := [] }

/-! ## Unfolding lemmas for the `[` dispatch -/

/-- One step of the dispatcher at a `[`. -/
lemma do_block_loop (fuel : Nat) (rest : List Char) (st : brainfuck_t) :
    do_brainfuck_block (fuel + 1) ('[' :: rest) st =
      match find_loop_end rest 1 with
      | none => some (-2, st)
      | some k =>
        if st.tape st.the_pointer ≠ 0 then
          match do_brainfuck_block fuel (rest.take k) st with
          | none => none
          | some (ret, st') =>
            if ret ≠ 0 then some (ret, st')
            else do_brainfuck_block fuel ('[' :: rest) st'
        else do_brainfuck_block fuel (rest.drop (k + 1)) st := by
  simp [do_brainfuck_block]

/-- An unmatched `[` returns `-2` with the state untouched. -/
lemma do_block_loop_unmatched (fuel : Nat) (rest : List Char) (st : brainfuck_t)
    (h : find_loop_end rest 1 = none) :
    do_brainfuck_block (fuel + 1) ('[' :: rest) st = some (-2, st) := by
  rw [do_block_loop, h]

/-- A `[` whose current cell is zero skips directly past the matching `]`. -/
lemma do_block_loop_zero (fuel : Nat) (rest : List Char) (k : Nat) (st : brainfuck_t)
    (hk : find_loop_end rest 1 = some k) (h0 : st.tape st.the_pointer = 0) :
    do_brainfuck_block (fuel + 1) ('[' :: rest) st =
      do_brainfuck_block fuel (rest.drop (k + 1)) st := by
  rw [do_block_loop, hk]
  simp [h0]

/-- A `[` whose current cell is non-zero runs the body once and, on a zero
status, re-enters the loop. -/
lemma do_block_loop_pos (fuel : Nat) (rest : List Char) (k : Nat) (st : brainfuck_t)
    (hk : find_loop_end rest 1 = some k) (h0 : st.tape st.the_pointer ≠ 0) :
    do_brainfuck_block (fuel + 1) ('[' :: rest) st =
      match do_brainfuck_block fuel (rest.take k) st with
      | none => none
      | some (ret, st') =>
        if ret ≠ 0 then some (ret, st')
        else do_brainfuck_block fuel ('[' :: rest) st' := by
  rw [do_block_loop, hk]
  simp [h0]

/-! ## C1: the loop-matching scan -/

lemma depth_from_zero (d : Int) (l : List Char) : depth_from d l 0 = d := by
  simp [depth_from]

lemma depth_from_cons (d : Int) (c : Char) (l : List Char) (j : Nat) :
    depth_from d (c :: l) (j + 1) = depth_from (d + depth_delta c) l j := by
  simp only [depth_from, depth_delta, List.take_succ_cons, List.count_cons, beq_iff_eq]
  split_ifs <;> simp_all <;> omega

/-- The updated `open_cnt` of one scan step agrees (for a positive count)
with the integer depth delta of the character. -/
lemma open_cnt_step (d : Nat) (hd : 1 ≤ d) (c : Char) :
    (((if c = '[' then d + 1 else if c = ']' then d - 1 else d) : Nat) : Int)
      = (d : Int) + depth_delta c := by
  unfold depth_delta
  split_ifs <;> push_cast <;> omega

/-- Soundness and minimality of the scan: a successful scan stops inside
the range, at a position where the depth counter reaches zero, and at the
first such position. -/
lemma find_loop_end_some_spec :
    ∀ (l : List Char) (d : Nat), 1 ≤ d → ∀ k, find_loop_end l d = some k →
      k < l.length ∧ depth_from d l (k + 1) = 0 ∧ ∀ j < k, depth_from d l (j + 1) ≠ 0 := by
  intro l
  induction l with
  | nil => intro d _ k h; simp [find_loop_end] at h
  | cons c rest ih =>
    intro d hd k h
    simp only [find_loop_end] at h
    set d' : Nat := if c = '[' then d + 1 else if c = ']' then d - 1 else d with hd'
    have hcast : (d' : Int) = (d : Int) + depth_delta c := open_cnt_step d hd c
    by_cases h0 : d' = 0
    · rw [if_pos h0] at h
      obtain rfl : k = 0 := by injection h; omega
      refine ⟨by simp, ?_, by omega⟩
      rw [zero_add, depth_from_cons, depth_from_zero, ← hcast, h0]
      rfl
    · rw [if_neg h0] at h
      have hd1 : 1 ≤ d' := by omega
      obtain ⟨k', hk', rfl⟩ : ∃ k', find_loop_end rest d' = some k' ∧ k = k' + 1 := by
        cases hfe : find_loop_end rest d' with
        | none => rw [hfe] at h; simp at h
        | some m => rw [hfe] at h; simp at h; exact ⟨m, rfl, h.symm⟩
      obtain ⟨hlt, hzero, hmin⟩ := ih d' hd1 k' hk'
      refine ⟨by simpa using Nat.succ_lt_succ hlt, ?_, ?_⟩
      · rw [depth_from_cons, ← hcast]
        exact_mod_cast hzero
      · intro j hj
        cases j with
        | zero =>
          rw [zero_add, depth_from_cons, depth_from_zero, ← hcast]
          exact_mod_cast h0
        | succ j' =>
          rw [depth_from_cons, ← hcast]
          exact_mod_cast hmin j' (by omega)

/-- Completeness of the scan: if the depth counter never reaches zero
within the range, the scan reports failure. -/
lemma find_loop_end_none_spec :
    ∀ (l : List Char) (d : Nat), 1 ≤ d →
      (∀ j < l.length, depth_from d l (j + 1) ≠ 0) → find_loop_end l d = none := by
  intro l
  induction l with
  | nil => intro d _ _; rfl
  | cons c rest ih =>
    intro d hd hnz
    simp only [find_loop_end]
    set d' : Nat := if c = '[' then d + 1 else if c = ']' then d - 1 else d with hd'
    have hcast : (d' : Int) = (d : Int) + depth_delta c := open_cnt_step d hd c
    have h0 : d' ≠ 0 := by
      intro h0
      apply hnz 0 (by simp)
      rw [zero_add, depth_from_cons, depth_from_zero, ← hcast, h0]
      rfl
    rw [if_neg h0, ih d' (by omega), Option.map_none']
    intro j hj
    have := hnz (j + 1) (by simpa using Nat.succ_lt_succ hj)
    rwa [depth_from_cons, ← hcast] at this

example : run_obs 10 [',', '.'] [65] = some (0, 0, [65]) := by decide
example : run_obs 10 ['[', '+'] [] = some (-2, 0, []) := by decide
example : run_obs 10 ['+', ']'] [] = some (-3, 0, []) := by decide
example : run_obs 10 ['@'] [] = some (-4, 0, []) := by decide
example : run_obs 10 ['<'] [] = some (0, -1, []) := by decide
example : run_obs 20 ['+', '+', '[', '-', ']', '.'] [] = some (0, 0, [0]) := by decide
example :
    (do_brainfuck 20 ['+', '+', '[', '>', '+', '+', '<', '-', ']'] []).map
      (fun r => (r.1, r.2.tape 0, r.2.tape 1)) = some (0, 0, 4) := by decide
example : find_loop_end ['-', ']'] 1 = some 1 := by decide
example : find_loop_end ['[', '-', ']', ']', '+'] 1 = some 3 := by decide
example : find_loop_end ['[', ']'] 1 = none := by decide

/-! ## Claim theorems -/

/-- C1: on encountering `[`, the engine scans forward from the next
position with a nesting depth counter starting at 1, incremented on each
`[` and decremented on each `]`; the loop body ends at the first position
where the counter reaches 0, and if the end of the block range is reached
before that, the engine returns the unmatched-open-bracket error `-2`. -/
theorem loop_matching_algorithm_correct :
    (∀ l k, find_loop_end l 1 = some k →
        k < l.length ∧ nest_depth l (k + 1) = 0 ∧ ∀ j < k, nest_depth l (j + 1) ≠ 0)
    ∧ (∀ l, (∀ j < l.length, nest_depth l (j + 1) ≠ 0) → find_loop_end l 1 = none)
    ∧ (∀ fuel rest st, find_loop_end rest 1 = none →
        do_brainfuck_block (fuel + 1) ('[' :: rest) st = some (-2, st)) :=
  ⟨fun l k h => find_loop_end_some_spec l 1 le_rfl k h,
   fun l h => find_loop_end_none_spec l 1 le_rfl h,
   fun fuel rest st h => do_block_loop_unmatched fuel rest st h⟩

theorem loop_matching_algorithm_correct_witness :
    nest_depth ['-', ']'] 2 = 0
    ∧ find_loop_end ['['] 1 = none
    ∧ do_brainfuck_block 1 ['[', '['] (init_state []) = some (-2, init_state []) :=
  ⟨(loop_matching_algorithm_correct.1 ['-', ']'] 1 (by decide)).2.1,
   loop_matching_algorithm_correct.2.1 ['['] (by decide),
   loop_matching_algorithm_correct.2.2 0 ['['] (init_state []) (by decide)⟩

/-- C2: a loop with matched span repeatedly tests the byte at the current
cell; while non-zero it executes the body span `rest.take k` as a fresh
sub-block on the very same state (so mutations are visible to the next
zero-test and to code after the loop), and once the test fails the scan
resumes immediately past the closing `]` (`rest.drop (k + 1)`). -/
theorem loop_execution_correct (fuel : Nat) (rest : List Char) (k : Nat) (st : brainfuck_t)
    (hk : find_loop_end rest 1 = some k) :
    (st.tape st.the_pointer = 0 →
      do_brainfuck_block (fuel + 1) ('[' :: rest) st
        = do_brainfuck_block fuel (rest.drop (k + 1)) st)
    ∧ (st.tape st.the_pointer ≠ 0 →
      do_brainfuck_block (fuel + 1) ('[' :: rest) st
        = match do_brainfuck_block fuel (rest.take k) st with
          | none => none
          | some (ret, st') =>
            if ret ≠ 0 then some (ret, st')
            else do_brainfuck_block fuel ('[' :: rest) st') :=
  ⟨fun h0 => do_block_loop_zero fuel rest k st hk h0,
   fun h0 => do_block_loop_pos fuel rest k st hk h0⟩

theorem loop_execution_correct_witness :
    (do_brainfuck_block 2 ['[', '-', ']'] (init_state [])
      = do_brainfuck_block 1 [] (init_state []))
    ∧ (do_brainfuck_block 2 ['[', '-', ']'] (st_n 1)
      = match do_brainfuck_block 1 ['-'] (st_n 1) with
        | none => none
        | some (ret, st') =>
          if ret ≠ 0 then some (ret, st')
          else do_brainfuck_block 1 ('[' :: ['-', ']']) st') :=
  ⟨(loop_execution_correct 1 ['-', ']'] 1 (init_state []) (by decide)).1 (by decide),
   (loop_execution_correct 1 ['-', ']'] 1 (st_n 1) (by decide)).2 (by decide)⟩

/-- C3: when the recursive execution of a loop body returns a non-zero
status, the loop aborts at once and that exact status is the value the
enclosing block returns; since this holds for every state and every fuel
bound, the status surfaces unchanged through every enclosing loop level,
as the concrete doubly nested script `+[[@]]` illustrates: the `-4` from
the innermost body is the top-level result. -/
theorem error_status_propagation :
    (∀ fuel rest k st st' ret, find_loop_end rest 1 = some k →
      st.tape st.the_pointer ≠ 0 →
      do_brainfuck_block fuel (rest.take k) st = some (ret, st') →
      ret ≠ 0 →
      do_brainfuck_block (fuel + 1) ('[' :: rest) st = some (ret, st'))
    ∧ run_obs 10 ['+', '[', '[', '@', ']', ']'] [] = some (-4, 0, []) := by
  constructor
  · intro fuel rest k st st' ret hk h0 hbody hret
    rw [do_block_loop_pos fuel rest k st hk h0, hbody]
    simp [hret]
  · decide

theorem error_status_propagation_witness :
    do_brainfuck_block 2 ['[', '@', ']'] (st_n 1) = some (-4, st_n 1) :=
  error_status_propagation.1 1 ['@', ']'] 1 (st_n 1) (st_n 1) (-4)
    (by decide) (by decide) rfl (by decide)

/-- C4: the script `[+` returns the unmatched-open error `-2` and `+]` the
unmatched-close error `-3`; the two statuses are distinct and non-zero; in
each case the returned state shows no effect of any instruction past the
error point (for `[+` the state is untouched, for `+]` only the `+` before
the error has acted); and a `]` reached by direct dispatch always yields
`-3`, whatever follows it. -/
theorem unmatched_bracket_errors :
    (∀ fuel st, do_brainfuck_block (fuel + 1) ['[', '+'] st = some (-2, st))
    ∧ (∀ fuel st, do_brainfuck_block (fuel + 2) ['+', ']'] st
        = some (-3,
          { st with tape := (tape_set st.tape st.the_pointer ((st.tape st.the_pointer + 1) % 256)) }))
    ∧ ((-2 : Int) ≠ 0 ∧ (-3 : Int) ≠ 0 ∧ (-2 : Int) ≠ -3)
    ∧ (∀ fuel rest st, do_brainfuck_block (fuel + 1) (']' :: rest) st = some (-3, st)) := by
  refine ⟨fun fuel st => ?_, fun fuel st => ?_, by norm_num, fun fuel rest st => ?_⟩
  · exact do_block_loop_unmatched fuel ['+'] st (by decide)
  · simp [do_brainfuck_block]
  · simp [do_brainfuck_block]

/-- C5: a character outside the eight-instruction set and the whitespace
set makes execution fail immediately with the illegal-character error `-4`,
leaving the state untouched and executing nothing that follows; a
whitespace character is skipped with no effect on the state. -/
theorem illegal_and_whitespace_chars :
    (∀ c, is_instruction c = false → is_ws c = false →
      ∀ fuel rest st, do_brainfuck_block (fuel + 1) (c :: rest) st = some (-4, st))
    ∧ (∀ c, is_ws c = true →
      ∀ fuel rest st, do_brainfuck_block (fuel + 1) (c :: rest) st
        = do_brainfuck_block fuel rest st) := by
  constructor
  · intro c h1 h2 fuel rest st
    simp only [is_instruction, Bool.or_eq_false_iff, decide_eq_false_iff_not] at h1
    obtain ⟨⟨⟨⟨⟨⟨⟨n1, n2⟩, n3⟩, n4⟩, n5⟩, n6⟩, n7⟩, n8⟩ := h1
    simp [do_brainfuck_block, n1, n2, n3, n4, n5, n6, n7, n8, h2]
  · intro c hc fuel rest st
    have hc' : c = '\r' ∨ c = '\n' ∨ c = ' ' ∨ c = '\t' ∨ c = '\x0B' ∨ c = '\x0C' := by
      simpa [is_ws, or_assoc] using hc
    rcases hc' with rfl | rfl | rfl | rfl | rfl | rfl <;> simp [do_brainfuck_block, is_ws]

theorem illegal_and_whitespace_chars_witness :
    do_brainfuck_block 1 ['@', '+'] (init_state []) = some (-4, init_state [])
    ∧ do_brainfuck_block 2 [' ', '+'] (init_state []) = do_brainfuck_block 1 ['+'] (init_state []) :=
  ⟨illegal_and_whitespace_chars.1 '@' (by decide) (by decide) 0 ['+'] (init_state []),
   illegal_and_whitespace_chars.2 ' ' (by decide) 1 ['+'] (init_state [])⟩

set_option maxRecDepth 10000 in
/-- C6: `+` and `-` act on the current cell modulo 256: on any byte-valued
cell a `+` followed by a `-` restores the state exactly, and 256
consecutive `+` on a cell starting at 0 leave it at 0 with a success
status. -/
theorem plus_minus_mod256 :
    (∀ fuel st, st.tape st.the_pointer < 256 →
      do_brainfuck_block (fuel + 3) ['+', '-'] st = some (0, st))
    ∧ (do_brainfuck 257 (List.replicate 256 '+') []).map (fun r => (r.1, r.2.tape 0))
        = some (0, 0) := by
  constructor
  · intro fuel st hv
    obtain ⟨p, t, i, o⟩ := st
    simp only at hv
    simp [do_brainfuck_block]
    funext j
    simp only [tape_set]
    by_cases hj : j = p <;> simp [hj]
    omega
  · decide

theorem plus_minus_mod256_witness :
    do_brainfuck_block 3 ['+', '-'] (st_n 7) = some (0, st_n 7) :=
  (plus_minus_mod256.1 0 (st_n 7) (by decide))

/-- C7: for every byte value 0–255 supplied by the read hook, the script
`,.` stores the byte into the current cell and then emits exactly that
byte: the single output byte equals the single input byte. -/
theorem read_emit_roundtrip (b : Nat) (hb : b < 256) :
    run_obs 3 [',', '.'] [b] = some (0, 0, [b]) := by
  simp [run_obs, do_brainfuck, do_brainfuck_block, init_state, tape_set,
    Nat.mod_eq_of_lt hb]

theorem read_emit_roundtrip_witness : run_obs 3 [',', '.'] [200] = some (0, 0, [200]) :=
  read_emit_roundtrip 200 (by decide)

/-! ## Helpers for the countdown loop and pointer moves -/

lemma tape_set_get (t : Int → Nat) (p : Int) (v : Nat) : tape_set t p v p = v := by
  simp [tape_set]

lemma tape_set_eq_self (t : Int → Nat) (p : Int) (v : Nat) (h : t p = v) :
    tape_set t p v = t := by
  funext j
  simp only [tape_set]
  split_ifs with hj
  · subst hj; exact h.symm
  · rfl

lemma tape_set_set (t : Int → Nat) (p : Int) (a b : Nat) :
    tape_set (tape_set t p a) p b = tape_set t p b := by
  funext j
  simp only [tape_set]
  split_ifs <;> rfl

/-- One `-` instruction on a cell holding `N + 1` leaves it at `N`. -/
lemma minus_step (fuel : Nat) (st : brainfuck_t) (N : Nat)
    (h0 : st.tape st.the_pointer = N + 1) (hN : N < 256) :
    do_brainfuck_block (fuel + 2) ['-'] st
      = some (0, { st with tape := (tape_set st.tape st.the_pointer N) }) := by
  have harith : (N + 1 + 255) % 256 = N := by omega
  simp [do_brainfuck_block, h0, harith]

/-- Executing `[-]` on a cell holding `N < 256` with fuel `N + 2` (one
fuel unit per iteration, plus the entry step and the exit step) succeeds
and zeroes the cell. -/
lemma countdown_succeeds :
    ∀ N : Nat, N < 256 → ∀ st : brainfuck_t, st.tape st.the_pointer = N →
      do_brainfuck_block (N + 2) ['[', '-', ']'] st
        = some (0, { st with tape := (tape_set st.tape st.the_pointer 0) }) := by
  intro N
  induction N with
  | zero =>
    intro _ st h0
    rw [show (0 + 2 : Nat) = 1 + 1 from rfl,
      do_block_loop_zero 1 ['-', ']'] 1 st (by decide) h0,
      show (['-', ']'].drop 2) = [] from rfl]
    rw [tape_set_eq_self st.tape st.the_pointer 0 h0]
    rfl
  | succ N ihN =>
    intro hN st h0
    rw [show (N + 1 + 2 : Nat) = (N + 2) + 1 from rfl,
      do_block_loop_pos (N + 2) ['-', ']'] 1 st (by decide) (by rw [h0]; exact Nat.succ_ne_zero N),
      show (['-', ']'].take 1) = ['-'] from rfl,
      minus_step N st N h0 (by omega)]
    simp only [ne_eq, not_true_eq_false, if_false]
    rw [ihN (by omega) _ (by simp [tape_set_get])]
    simp [tape_set_set]

/-- With one fuel unit less than `countdown_succeeds` needs, `[-]` on a
cell holding `N` runs out of fuel: the loop really performs `N` body
iterations, each of which consumes exactly one unit. -/
lemma countdown_fuel_short :
    ∀ N : Nat, N < 256 → ∀ st : brainfuck_t, st.tape st.the_pointer = N →
      do_brainfuck_block (N + 1) ['[', '-', ']'] st = none := by
  intro N
  induction N with
  | zero =>
    intro _ st h0
    rw [show (0 + 1 : Nat) = 0 + 1 from rfl,
      do_block_loop_zero 0 ['-', ']'] 1 st (by decide) h0]
    rfl
  | succ N ihN =>
    intro hN st h0
    rw [show (N + 1 + 1 : Nat) = (N + 1) + 1 from rfl,
      do_block_loop_pos (N + 1) ['-', ']'] 1 st (by decide) (by rw [h0]; exact Nat.succ_ne_zero N),
      show (['-', ']'].take 1) = ['-'] from rfl]
    cases N with
    | zero => simp [do_brainfuck_block, h0]
    | succ M =>
      rw [show (M + 1 + 1 : Nat) = M + 2 from rfl, minus_step M st (M + 1) h0 (by omega)]
      simp only [ne_eq, not_true_eq_false, if_false]
      exact ihN (by omega) _ (by simp [tape_set_get])

/-- A run of `n` consecutive `>` advances the pointer by exactly `n`, with
no clamping, wrapping, or error, whatever the starting position. -/
lemma move_right_replicate :
    ∀ n fuel (st : brainfuck_t),
      do_brainfuck_block (fuel + n + 1) (List.replicate n '>') st
        = some (0, { st with the_pointer := st.the_pointer + n }) := by
  intro n
  induction n with
  | zero =>
    intro fuel st
    simp [do_brainfuck_block]
  | succ n ih =>
    intro fuel st
    rw [List.replicate_succ, show fuel + (n + 1) + 1 = (fuel + n + 1) + 1 from by omega]
    simp [do_brainfuck_block, ih fuel]
    omega

/-- C8: for every `N` in 0–255, the loop `[-]` entered with the current
cell holding `N` terminates with status 0 leaving the cell at 0, and it
does so after exactly `N` iterations of the body: fuel `N + 2` (one unit
per iteration plus loop entry and exit) suffices, while fuel `N + 1` is
exhausted before completion. -/
theorem countdown_loop_exact (N : Nat) (hN : N < 256) (st : brainfuck_t)
    (h0 : st.tape st.the_pointer = N) :
    do_brainfuck_block (N + 2) ['[', '-', ']'] st
      = some (0, { st with tape := (tape_set st.tape st.the_pointer 0) })
    ∧ do_brainfuck_block (N + 1) ['[', '-', ']'] st = none :=
  ⟨countdown_succeeds N hN st h0, countdown_fuel_short N hN st h0⟩

theorem countdown_loop_exact_witness :
    do_brainfuck_block 5 ['[', '-', ']'] (st_n 3)
      = some (0, { st_n 3 with tape := (tape_set (st_n 3).tape (st_n 3).the_pointer 0) })
    ∧ do_brainfuck_block 4 ['[', '-', ']'] (st_n 3) = none :=
  countdown_loop_exact 3 (by decide) (st_n 3) (by decide)

/-- C9: `>` and `<` move the tape pointer by exactly one cell in either
direction with no bounds check against the 30000-cell tape — for every
state, including one whose pointer is already outside `[0, 30000)`, the
move is exact arithmetic, never clamped, wrapped, or turned into an error;
a single `<` from the initial state leaves the pointer at `-1 < 0`, and
30001 consecutive `>` leave it at `30001 ≥ 30000`, both with success
status. -/
theorem pointer_no_bounds_check :
    (∀ fuel st, do_brainfuck_block (fuel + 2) ['>'] st
        = some (0, { st with the_pointer := st.the_pointer + 1 }))
    ∧ (∀ fuel st, do_brainfuck_block (fuel + 2) ['<'] st
        = some (0, { st with the_pointer := st.the_pointer - 1 }))
    ∧ (run_obs 2 ['<'] [] = some (0, -1, []) ∧ ¬(0 ≤ (-1 : Int)))
    ∧ ((do_brainfuck (1 + (MAX_BRAINFUCK + 1) + 1)
          (List.replicate (MAX_BRAINFUCK + 1) '>') []).map
            (fun r => (r.1, r.2.the_pointer)) = some (0, (MAX_BRAINFUCK : Int) + 1)
        ∧ ¬((MAX_BRAINFUCK : Int) + 1 < (MAX_BRAINFUCK : Int))) := by
  refine ⟨fun fuel st => by simp [do_brainfuck_block],
    fun fuel st => by simp [do_brainfuck_block], ⟨by decide, by norm_num⟩, ?_, by omega⟩
  rw [do_brainfuck, move_right_replicate (MAX_BRAINFUCK + 1) 1 (init_state [])]
  simp [init_state]

/-- C10: a loop whose cell is zero at the `[` executes its body zero
times and only ever bracket-matches it: the scan steps over every
non-bracket character without looking at it, the zero-test branches
straight past the closing `]`, and so a script like `[@]` whose skipped
body holds the illegal character `@` still returns success. -/
theorem skipped_body_never_validated :
    (∀ (l : List Char) (d : Nat) (c : Char), 1 ≤ d → c ≠ '[' → c ≠ ']' →
      find_loop_end (c :: l) d = (find_loop_end l d).map (· + 1))
    ∧ (∀ fuel rest k st, find_loop_end rest 1 = some k → st.tape st.the_pointer = 0 →
        do_brainfuck_block (fuel + 1) ('[' :: rest) st
          = do_brainfuck_block fuel (rest.drop (k + 1)) st)
    ∧ run_obs 2 ['[', '@', ']'] [] = some (0, 0, []) := by
  refine ⟨?_, fun fuel rest k st hk h0 => do_block_loop_zero fuel rest k st hk h0, by decide⟩
  intro l d c hd hco hcc
  have hdz : ¬(d = 0) := by omega
  simp [find_loop_end, hco, hcc, hdz]

theorem skipped_body_never_validated_witness :
    find_loop_end ['@', ']'] 1 = (find_loop_end [']'] 1).map (· + 1)
    ∧ do_brainfuck_block 2 ['[', '@', ']'] (init_state [])
        = do_brainfuck_block 1 (['@', ']'].drop 2) (init_state []) :=
  ⟨skipped_body_never_validated.1 [']'] 1 '@' (by decide) (by decide) (by decide),
   skipped_body_never_validated.2.1 1 ['@', ']'] 1 (init_state []) (by decide) (by decide)⟩
